import Mathlib

/-!
Verification development for the SyncZenith payroll backend
(`src/main.py`, `src/schemas.py`).

Money amounts are modelled as exact rationals (`ℚ`); calendar dates as
year/month/day triples ordered lexicographically, which is the
chronological order on valid dates.
-/

set_option autoImplicit false

namespace SyncZenith

/-- A calendar date (as Python's `datetime.date`): year, month, day. -/
structure PyDate where
  year : Nat
  month : Nat
  day : Nat
deriving DecidableEq, Repr

/-- Chronological `≤` on dates: lexicographic on (year, month, day). -/
def PyDate.ble (a b : PyDate) : Bool :=
  Nat.blt a.year b.year ||
    (a.year == b.year &&
      (Nat.blt a.month b.month ||
        (a.month == b.month && Nat.ble a.day b.day)))

/-- Chronological `<` on dates: lexicographic on (year, month, day). -/
def PyDate.blt (a b : PyDate) : Bool :=
  Nat.blt a.year b.year ||
    (a.year == b.year &&
      (Nat.blt a.month b.month ||
        (a.month == b.month && Nat.blt a.day b.day)))

/-- Schema `schemas.PayrollProfile`: pay components of an employee. -/
structure PayrollProfile where
  basic : ℚ
  hra : ℚ
  ta : ℚ := 0
  bonus : ℚ := 0
  epf : ℚ := 0
  esi : ℚ := 0
  totalCTC : ℚ
deriving DecidableEq, Repr

/-- Schema `schemas.Employee`. Here `payrollProfile = none` models an employee document
stored without a payroll profile. -/
structure Employee where
  name : String
  department : Option String := none
  email : String
  paymentType : String := "Monthly"
  payrollProfile : Option PayrollProfile := none
  status : String := "Active"
  source : String := "Manual"
deriving DecidableEq, Repr

/-- The three payroll-run statuses of `schemas.Payroll.status`. -/
inductive PayrollStatus where
  | Draft
  | Processed
  | Sent
deriving DecidableEq, Repr

/-- The string stored in the `status` field of a payroll document. -/
def statusName : PayrollStatus → String
  | .Draft => "Draft"
  | .Processed => "Processed"
  | .Sent => "Sent"

/-- Schema `schemas.PayrollEmployeeItem`: one line item of a payroll run. -/
structure PayrollEmployeeItem where
  employee_id : String
  earnings : ℚ
  deductions : ℚ
  net : ℚ
deriving DecidableEq, Repr

/-- Schema `schemas.Payroll`: a payroll run document. -/
structure Payroll where
  month : PyDate
  status : PayrollStatus := .Draft
  type : String := "Monthly"
  employees : List PayrollEmployeeItem := []
deriving DecidableEq, Repr

/-- Schema `schemas.Payslip`: a payslip document. -/
structure Payslip where
  employeeId : String
  payrollMonth : PyDate
  grossSalary : ℚ
  deductions : ℚ
  netSalary : ℚ
  pdfPath : Option String := none
  sent : Bool := false
deriving DecidableEq, Repr

/-- Modelled from the spec: `database.py` (the Entity Store: the `db`
handle with `create_document` / `get_documents`) is imported by
`src/main.py` but is not under `src/`.  Per the spec it provides generic
create/query access to named collections of documents.  Collections are
modelled as association lists from document id to document (payslips need
no id for the endpoints under study), a document is stored exactly as its
schema models it with an unset optional field absent (so dictionary
`.get` defaults apply on read-back), and range filters on date fields
compare chronologically. -/
structure Store where
  employees : List (String × Employee) := []
  payrolls : List (String × Payroll) := []
  payslips : List Payslip := []
deriving DecidableEq, Repr

/-- First document in a collection with the given id (`find_one({"_id": id})`;
ids are unique in the underlying store, so first = only). -/
def lookupBy {α : Type} : List (String × α) → String → Option α
  | [], _ => none
  | kp :: rest, k => if kp.1 == k then some kp.2 else lookupBy rest k

/-- Lookup `db["employee"].find_one({"_id": oid(eid)})`. -/
def findEmployee (s : Store) (eid : String) : Option Employee :=
  lookupBy s.employees eid

/-- Lookup `db["payroll"].find_one({"_id": oid(pid)})`. -/
def findPayroll (s : Store) (pid : String) : Option Payroll :=
  lookupBy s.payrolls pid

/-- Update `db["payroll"].update_one({"_id": pid}, {"$set": {"status": st}})`. -/
def setRunStatus (l : List (String × Payroll)) (pid : String)
    (st : PayrollStatus) : List (String × Payroll) :=
  l.map (fun kp => if kp.1 == pid then (kp.1, { kp.2 with status := st }) else kp)

/-- Validity of ids: `bson.ObjectId` accepts exactly the 24-character hexadecimal strings
(`main.oid` wraps this, turning failure into a 400 error). -/
def isValidOid (str : String) : Bool :=
  str.length == 24 && str.toList.all (fun c => c.isDigit ||
    ('a' ≤ c && c ≤ 'f') || ('A' ≤ c && c ≤ 'F'))

/-- The two error classes raised by the payroll endpoints:
`HTTPException(400, "Invalid id")` from `oid`, and `HTTPException(404, ...)`. -/
inductive ApiError where
  | invalidId
  | notFound (detail : String)
deriving DecidableEq, Repr

/-- The per-employee computation of `create_payroll` (src/main.py lines
173-179):
`basic = e.get("payrollProfile", {}).get("basic", 30000)`,
`hra = e.get("payrollProfile", {}).get("hra", basic * 0.4)`,
`gross = basic + hra`, `deductions = gross * 0.12`, `net = gross - deductions`.
An employee with no payroll profile has no `payrollProfile` key, so both
dictionary defaults apply. -/
def computeLineItem (eid : String) (e : Employee) : PayrollEmployeeItem :=
  let basic : ℚ := match e.payrollProfile with
    | some prof => prof.basic
    | none => 30000
  let hra : ℚ := match e.payrollProfile with
    | some prof => prof.hra
    | none => basic * (0.4 : ℚ)
  let gross := basic + hra
  let deductions := gross * (0.12 : ℚ)
  ⟨eid, gross, deductions, gross - deductions⟩

/-- The accumulation loop of `create_payroll`: for each requested id,
validate it (`oid` raises on a malformed id, aborting the request before
any write), look the employee up, silently skip ids that do not resolve,
and otherwise append the computed line item. -/
def buildItems (s : Store) : List String → Except ApiError (List PayrollEmployeeItem)
  | [] => .ok []
  | eid :: rest =>
    if isValidOid eid then
      match findEmployee s eid with
      | none => buildItems s rest
      | some e =>
        match buildItems s rest with
        | .error err => .error err
        | .ok items => .ok (computeLineItem eid e :: items)
    else .error .invalidId

/-- Request body of `POST /api/payroll`. -/
structure CreatePayrollRequest where
  month : PyDate
  type : String := "Monthly"
  employee_ids : List String
deriving DecidableEq, Repr

/-- Endpoint `POST /api/payroll` (`create_payroll`): build the line items, then
persist a new Draft run.  `newId` is the store-generated id of the new
document. -/
def create_payroll (req : CreatePayrollRequest) (newId : String) (s : Store) :
    Except ApiError (Store × String) :=
  match buildItems s req.employee_ids with
  | .error err => .error err
  | .ok items =>
    .ok ({ s with payrolls := s.payrolls ++
            [(newId, { month := req.month, status := .Draft,
                       type := req.type, employees := items })] },
         newId)

/-- The payslip document created for one line item during processing:
`PayslipSchema(employeeId=it["employee_id"], payrollMonth=p["month"],
grossSalary=it["earnings"], deductions=it["deductions"], netSalary=it["net"])`,
with schema defaults `pdfPath=None`, `sent=False`. -/
def mkPayslip (month : PyDate) (it : PayrollEmployeeItem) : Payslip :=
  { employeeId := it.employee_id, payrollMonth := month,
    grossSalary := it.earnings, deductions := it.deductions,
    netSalary := it.net, pdfPath := none, sent := false }

/-- Endpoint `POST /api/payroll/{id}/process` (`process_payroll`): 404 if the run is
absent, else set its status to Processed, create one payslip per line item
of the fetched snapshot, and return the generated count. -/
def process_payroll (pid : String) (s : Store) : Except ApiError (Store × Nat) :=
  if isValidOid pid then
    match findPayroll s pid with
    | none => .error (.notFound "Payroll not found")
    | some p =>
      .ok ({ s with payrolls := setRunStatus s.payrolls pid .Processed,
                    payslips := s.payslips ++ p.employees.map (mkPayslip p.month) },
           p.employees.length)
  else .error .invalidId

/-- Endpoint `POST /api/payslips/send` (`send_payslips`): with a run id, 404 if the
run is absent, else mark sent=true on every payslip whose payrollMonth
equals the run's month (counting each matched payslip) and set the run's
status to Sent; with no run id, mark every payslip in the store. -/
def send_payslips (payroll_id : Option String) (s : Store) :
    Except ApiError (Store × Nat) :=
  match payroll_id with
  | some pid =>
    if isValidOid pid then
      match findPayroll s pid with
      | none => .error (.notFound "Payroll not found")
      | some p =>
        .ok ({ s with
                payslips := s.payslips.map (fun sl =>
                  if sl.payrollMonth = p.month then { sl with sent := true } else sl),
                payrolls := setRunStatus s.payrolls pid .Sent },
             (s.payslips.filter (fun sl => sl.payrollMonth = p.month)).length)
    else .error .invalidId
  | none =>
    .ok ({ s with payslips := s.payslips.map (fun sl => { sl with sent := true }) },
         s.payslips.length)

/-- Split a character list at every dash, as Python's `str.split("-")`:
`"2024-02"` gives two parts, the empty string gives one empty part. -/
def splitDash : List Char → List (List Char)
  | [] => [[]]
  | c :: rest =>
    match splitDash rest with
    | [] => if c = '-' then [[], []] else [[c]]
    | h :: t => if c = '-' then [] :: h :: t else (c :: h) :: t

/-- Python's `int(...)` on the plain digit strings that appear in a valid
`YYYY-MM` month filter. -/
def digitsToNat (cs : List Char) : Option Nat :=
  if cs ≠ [] && cs.all (fun c => c.isDigit) then
    some (cs.foldl (fun n c => n * 10 + (c.toNat - 48)) 0)
  else none

/-- The half-open date interval computed for month filter (y, m)
(src/main.py lines 194-198 and 285-288):
start = datetime(y, m, 1); end month/year roll over to January of the
next year when m = 12. -/
def monthBounds (y m : Nat) : PyDate × PyDate :=
  (⟨y, m, 1⟩, ⟨if m < 12 then y else y + 1, if m < 12 then m + 1 else 1, 1⟩)

/-- Parse a `YYYY-MM` month filter string.  Python unpacks
`month.split("-")` into exactly two parts, converts both with `int`, and
builds `datetime(y, m, 1)` (which demands 1 ≤ y ≤ 9999 and 1 ≤ m ≤ 12);
any exception is swallowed and the filter silently dropped (`none`). -/
def parseMonthFilter (str : String) : Option (PyDate × PyDate) :=
  match splitDash str.toList with
  | [ys, ms] =>
    match digitsToNat ys, digitsToNat ms with
    | some y, some m =>
      if 1 ≤ y && y ≤ 9999 && 1 ≤ m && m ≤ 12 then some (monthBounds y m)
      else none
    | _, _ => none
  | _ => none

/-- A Mongo filter over the payroll collection: an optional exact status
string and an optional `$gte`/`$lt` range on the month field. -/
structure RunFilter where
  status : Option String := none
  monthRange : Option (PyDate × PyDate) := none

/-- Whether a date lies in an (optional) half-open range. -/
def inRange (range : Option (PyDate × PyDate)) (d : PyDate) : Bool :=
  match range with
  | none => true
  | some r => PyDate.ble r.1 d && PyDate.blt d r.2

/-- Whether a payroll run document matches a filter. -/
def runMatches (f : RunFilter) (p : Payroll) : Bool :=
  (match f.status with
   | none => true
   | some st => statusName p.status == st) && inRange f.monthRange p.month

/-- Endpoint `GET /api/payroll` (`list_payroll`): optional status filter (an empty
string is falsy in Python and adds no filter), optional month filter
(dropped silently when malformed), then fetch the matching runs. -/
def list_payroll (status : Option String) (month : Option String) (s : Store) :
    List Payroll :=
  ((s.payrolls.filter (fun kp =>
      runMatches
        { status := match status with
            | none => none
            | some st => if st = "" then none else some st,
          monthRange := month.bind parseMonthFilter }
        kp.2)).map (fun kp => kp.2))

/-- The response of `GET /api/reports/summary`. -/
structure Summary where
  total : Nat
  processed : Nat
  sent : Nat
  gross : ℚ
  net : ℚ
deriving DecidableEq, Repr

/-- Endpoint `GET /api/reports/summary` (`payroll_summary`): optional month filter
(dropped silently when malformed); counts of matching runs, of matching
runs with status Processed and with status Sent, and sums of the
`earnings` and `net` fields over all line items of all matching runs. -/
def payroll_summary (month : Option String) (s : Store) : Summary :=
  { total := (s.payrolls.filter (fun kp =>
      runMatches { monthRange := month.bind parseMonthFilter } kp.2)).length,
    processed := (s.payrolls.filter (fun kp =>
      runMatches { status := some "Processed",
                   monthRange := month.bind parseMonthFilter } kp.2)).length,
    sent := (s.payrolls.filter (fun kp =>
      runMatches { status := some "Sent",
                   monthRange := month.bind parseMonthFilter } kp.2)).length,
    gross := (((s.payrolls.filter (fun kp =>
      runMatches { monthRange := month.bind parseMonthFilter } kp.2)).map
        (fun kp => (kp.2.employees.map (fun it => it.earnings)).sum)).sum),
    net := (((s.payrolls.filter (fun kp =>
      runMatches { monthRange := month.bind parseMonthFilter } kp.2)).map
        (fun kp => (kp.2.employees.map (fun it => it.net)).sum)).sum) }

/-- The store-writing operations of the API that can touch employee or
payroll documents (creating employees, creating runs, processing runs,
sending payslips).  Store-generated fresh ids are carried as data. -/
inductive Op where
  | createEmployee (newId : String) (e : Employee)
  | createRun (req : CreatePayrollRequest) (newId : String)
  | processRun (pid : String)
  | sendSlips (payroll_id : Option String)

/-- The store after one API operation; a request that fails (400/404)
leaves the store unchanged, since every such failure in `src/main.py`
is raised before the first write. -/
def applyOp (op : Op) (s : Store) : Store :=
  match op with
  | .createEmployee newId e => { s with employees := s.employees ++ [(newId, e)] }
  | .createRun req newId =>
    match create_payroll req newId s with
    | .ok r => r.1
    | .error _ => s
  | .processRun pid =>
    match process_payroll pid s with
    | .ok r => r.1
    | .error _ => s
  | .sendSlips payroll_id =>
    match send_payslips payroll_id s with
    | .ok r => r.1
    | .error _ => s

/-- The store after a sequence of API operations. -/
def applyOps : List Op → Store → Store
  | [], s => s
  | op :: rest, s => applyOps rest (applyOp op s)

/-- A sample employee stored without a payroll profile. -/
def empNoProfile : Employee :=
  { name := "Aarav Mehta", email := "employee1@synczenith.com" }

/-- A sample employee stored with an explicit payroll profile. -/
def empWithProfile : Employee :=
  { name := "Diya Kapoor", email := "employee2@synczenith.com",
    payrollProfile := some { basic := 50000, hra := 10000, totalCTC := 60000 } }

def oidA : String := "aaaaaaaaaaaaaaaaaaaaaaaa"

def oidB : String := "bbbbbbbbbbbbbbbbbbbbbbbb"

def oidRun : String := "cccccccccccccccccccccccc"

def oidMissing : String := "dddddddddddddddddddddddd"

def oidNew : String := "eeeeeeeeeeeeeeeeeeeeeeee"

/-- A sample store holding two employees and no runs. -/
def storeCreate : Store :=
  { employees := [(oidA, empNoProfile), (oidB, empWithProfile)] }

/-- A payroll-creation request naming one stored employee. -/
def reqOne : CreatePayrollRequest :=
  { month := ⟨2024, 2, 1⟩, employee_ids := [oidA] }

/-- A payroll-creation request naming three ids of which one is unresolvable. -/
def reqThree : CreatePayrollRequest :=
  { month := ⟨2024, 2, 1⟩, employee_ids := [oidA, oidMissing, oidB] }

/-- A sample Draft payroll run for February 2024 with one line item. -/
def runFeb : Payroll :=
  { month := ⟨2024, 2, 1⟩, status := .Draft, type := "Monthly",
    employees := [⟨oidA, 42000, 5040, 36960⟩] }

/-- A sample store holding one Draft run and no payslips. -/
def storeRun : Store := { payrolls := [(oidRun, runFeb)] }

/-- A payslip for February 2024 (the month of `runFeb`). -/
def slipFeb : Payslip :=
  { employeeId := oidA, payrollMonth := ⟨2024, 2, 1⟩, grossSalary := 42000,
    deductions := 5040, netSalary := 36960 }

/-- A payslip for March 2024 (a month no stored run has). -/
def slipMar : Payslip :=
  { employeeId := oidB, payrollMonth := ⟨2024, 3, 1⟩, grossSalary := 100,
    deductions := 12, netSalary := 88 }

/-- A sample store holding one run and two payslips of different months. -/
def storeSend : Store :=
  { payrolls := [(oidRun, runFeb)], payslips := [slipFeb, slipMar] }

/-- A sample already-Processed run. -/
def runProcessed : Payroll :=
  { month := ⟨2024, 2, 1⟩, status := .Processed,
    employees := [⟨oidA, 42000, 5040, 36960⟩] }

/-- A sample store holding one already-Processed run. -/
def storeLifecycle : Store := { payrolls := [(oidRun, runProcessed)] }

/-- A sample operation sequence touching the run of `storeLifecycle`. -/
def opsLifecycle : List Op :=
  [.processRun oidRun, .sendSlips (some oidRun), .sendSlips none,
   .createRun reqOne oidNew]

theorem lookupBy_append_left {α : Type} (l l' : List (String × α)) (k : String)
    (v : α) (h : lookupBy l k = some v) : lookupBy (l ++ l') k = some v := by
  induction l with
  | nil => simp [lookupBy] at h
  | cons kp rest ih =>
    cases hk : kp.1 == k with
    | true => simp only [lookupBy, hk, if_pos] at h ⊢; exact h
    | false =>
      simp only [lookupBy, hk, Bool.false_eq_true, if_neg, not_false_eq_true,
        List.cons_append] at h ⊢
      exact ih h

theorem lookupBy_append_fresh {α : Type} (l : List (String × α)) (k : String)
    (v : α) (h : ∀ kp ∈ l, kp.1 ≠ k) : lookupBy (l ++ [(k, v)]) k = some v := by
  induction l with
  | nil => simp [lookupBy]
  | cons kp rest ih =>
    have hne : (kp.1 == k) = false := by
      simp only [beq_eq_false_iff_ne, ne_eq]
      exact h kp (by simp)
    simp only [List.cons_append, lookupBy, hne, Bool.false_eq_true, if_neg,
      not_false_eq_true]
    exact ih (fun kp' hkp' => h kp' (by simp [hkp']))

theorem lookupBy_setRunStatus_self (l : List (String × Payroll)) (pid : String)
    (st : PayrollStatus) :
    lookupBy (setRunStatus l pid st) pid =
      (lookupBy l pid).map (fun p => { p with status := st }) := by
  induction l with
  | nil => simp [lookupBy, setRunStatus]
  | cons kp rest ih =>
    cases hk : kp.1 == pid with
    | true =>
      simp only [setRunStatus, List.map_cons, hk, if_pos, lookupBy]
      rfl
    | false =>
      simp only [setRunStatus, List.map_cons, hk, Bool.false_eq_true, if_neg,
        not_false_eq_true, lookupBy] at ih ⊢
      exact ih

theorem lookupBy_setRunStatus_other (l : List (String × Payroll))
    (pid qid : String) (st : PayrollStatus) (h : qid ≠ pid) :
    lookupBy (setRunStatus l pid st) qid = lookupBy l qid := by
  induction l with
  | nil => simp [lookupBy, setRunStatus]
  | cons kp rest ih =>
    cases hk : kp.1 == pid with
    | true =>
      have hq : (kp.1 == qid) = false := by
        have h1 : kp.1 = pid := by simpa using hk
        simp only [beq_eq_false_iff_ne, ne_eq, h1]
        exact fun hc => h hc.symm
      simp only [setRunStatus, List.map_cons, hk, if_pos, lookupBy, hq,
        Bool.false_eq_true, if_neg, not_false_eq_true] at ih ⊢
      exact ih
    | false =>
      cases hq : kp.1 == qid with
      | true =>
        simp only [setRunStatus, List.map_cons, hk, Bool.false_eq_true, if_neg,
          not_false_eq_true, lookupBy, hq, if_pos]
      | false =>
        simp only [setRunStatus, List.map_cons, hk, Bool.false_eq_true, if_neg,
          not_false_eq_true, lookupBy, hq] at ih ⊢
        exact ih

theorem computeLineItem_default (eid : String) (e : Employee)
    (h : e.payrollProfile = none) :
    computeLineItem eid e = ⟨eid, 42000, 5040, 36960⟩ := by
  simp only [computeLineItem, h]
  norm_num

theorem buildItems_ok (s : Store) (ids : List String)
    (h : ∀ i ∈ ids, isValidOid i = true) :
    ∃ items, buildItems s ids = .ok items ∧
      items.length = (ids.filter (fun i => (findEmployee s i).isSome)).length := by
  induction ids with
  | nil => exact ⟨[], rfl, rfl⟩
  | cons eid rest ih =>
    obtain ⟨items, hok, hlen⟩ := ih (fun i hi => h i (by simp [hi]))
    have hv : isValidOid eid = true := h eid (by simp)
    cases hfind : findEmployee s eid with
    | none =>
      refine ⟨items, ?_, ?_⟩
      · simp [buildItems, hv, hfind, hok]
      · simp [List.filter, hfind, hlen]
    | some e =>
      refine ⟨computeLineItem eid e :: items, ?_, ?_⟩
      · simp [buildItems, hv, hfind, hok]
      · simp [List.filter, hfind, hlen]

theorem buildItems_mem (s : Store) (ids : List String)
    (items : List PayrollEmployeeItem) (eid : String) (e : Employee)
    (hok : buildItems s ids = .ok items) (hmem : eid ∈ ids)
    (hfind : findEmployee s eid = some e) : computeLineItem eid e ∈ items := by
  induction ids generalizing items with
  | nil => simp at hmem
  | cons i rest ih =>
    by_cases hv : isValidOid i
    · rcases List.mem_cons.mp hmem with heq | hrest
      · subst heq
        simp only [buildItems, hv, if_pos, hfind] at hok
        cases hrec : buildItems s rest with
        | error err => rw [hrec] at hok; exact absurd hok (by simp)
        | ok items' =>
          rw [hrec] at hok
          have : computeLineItem eid e :: items' = items := by
            simpa using hok
          rw [← this]
          simp
      · simp only [buildItems, hv, if_pos] at hok
        cases hfi : findEmployee s i with
        | none =>
          rw [hfi] at hok
          exact ih items hok hrest
        | some e' =>
          rw [hfi] at hok
          cases hrec : buildItems s rest with
          | error err => rw [hrec] at hok; exact absurd hok (by simp)
          | ok items' =>
            rw [hrec] at hok
            have hstep := ih items' hrec hrest
            have : computeLineItem i e' :: items' = items := by simpa using hok
            rw [← this]
            simp [hstep]
    · simp only [buildItems, hv, if_neg, not_false_eq_true] at hok
      exact absurd hok (by simp)

/-- C1: for every employee record with no payroll profile, creating a
payroll run containing that employee produces a line item with earnings
(gross) = 42000, deductions = 5040 and net = 36960: basic defaults to
30000 and housing allowance to 40% of basic. -/
theorem create_payroll_defaults (s : Store) (req : CreatePayrollRequest)
    (newId eid : String) (e : Employee)
    (hvalid : ∀ i ∈ req.employee_ids, isValidOid i = true)
    (hfresh : ∀ kp ∈ s.payrolls, kp.1 ≠ newId)
    (hmem : eid ∈ req.employee_ids)
    (hfind : findEmployee s eid = some e)
    (hprof : e.payrollProfile = none) :
    ∃ s' p, create_payroll req newId s = .ok (s', newId) ∧
      findPayroll s' newId = some p ∧
      ({ employee_id := eid, earnings := 42000, deductions := 5040,
         net := 36960 : PayrollEmployeeItem }) ∈ p.employees := by
  obtain ⟨items, hok, _⟩ := buildItems_ok s req.employee_ids hvalid
  refine ⟨{ s with payrolls := s.payrolls ++
      [(newId, { month := req.month, status := .Draft, type := req.type,
                 employees := items })] },
    { month := req.month, status := .Draft, type := req.type,
      employees := items }, ?_, ?_, ?_⟩
  · simp [create_payroll, hok]
  · exact lookupBy_append_fresh s.payrolls newId _ hfresh
  · have hm := buildItems_mem s req.employee_ids items eid e hok hmem hfind
    rwa [computeLineItem_default eid e hprof] at hm

/-- Witness for C1: creating a run over the profile-less sample employee
yields the default line item 42000 / 5040 / 36960. -/
theorem create_payroll_defaults_witness :
    ∃ s' p, create_payroll reqOne oidRun storeCreate = .ok (s', oidRun) ∧
      findPayroll s' oidRun = some p ∧
      ({ employee_id := oidA, earnings := 42000, deductions := 5040,
         net := 36960 : PayrollEmployeeItem }) ∈ p.employees :=
  create_payroll_defaults storeCreate reqOne oidRun oidA empNoProfile
    (by decide) (by decide) (by decide) (by decide) (by decide)

/-- C7: a payroll-creation request whose ids are all well-formed never
fails; ids that do not resolve to a stored employee are silently skipped,
and the created Draft run has one line item per id that did resolve. -/
theorem create_payroll_skips_unresolved (s : Store)
    (req : CreatePayrollRequest) (newId : String)
    (hvalid : ∀ i ∈ req.employee_ids, isValidOid i = true)
    (hfresh : ∀ kp ∈ s.payrolls, kp.1 ≠ newId) :
    ∃ s' p, create_payroll req newId s = .ok (s', newId) ∧
      findPayroll s' newId = some p ∧ p.status = .Draft ∧
      p.employees.length =
        (req.employee_ids.filter (fun i => (findEmployee s i).isSome)).length := by
  obtain ⟨items, hok, hlen⟩ := buildItems_ok s req.employee_ids hvalid
  refine ⟨{ s with payrolls := s.payrolls ++
      [(newId, { month := req.month, status := .Draft, type := req.type,
                 employees := items })] },
    { month := req.month, status := .Draft, type := req.type,
      employees := items }, ?_, ?_, rfl, hlen⟩
  · simp [create_payroll, hok]
  · exact lookupBy_append_fresh s.payrolls newId _ hfresh

/-- Witness for C7: a request with 3 well-formed ids of which one does not
resolve yields a Draft run with exactly 2 line items. -/
theorem create_payroll_skips_unresolved_witness :
    ∃ s' p, create_payroll reqThree oidRun storeCreate = .ok (s', oidRun) ∧
      findPayroll s' oidRun = some p ∧ p.status = .Draft ∧
      p.employees.length = 2 := by
  obtain ⟨s', p, h1, h2, h3, h4⟩ :=
    create_payroll_skips_unresolved storeCreate reqThree oidRun
      (by decide) (by decide)
  refine ⟨s', p, h1, h2, h3, ?_⟩
  rw [h4]
  decide

/-- C8: the payroll calculation has no error conditions: with well-formed
ids, payroll-run creation always succeeds, whatever the stored employees
look like (with or without payroll profiles). -/
theorem payroll_calculation_total (s : Store) (req : CreatePayrollRequest)
    (newId : String)
    (hvalid : ∀ i ∈ req.employee_ids, isValidOid i = true) :
    ∃ s', create_payroll req newId s = .ok (s', newId) := by
  obtain ⟨items, hok, _⟩ := buildItems_ok s req.employee_ids hvalid
  exact ⟨{ s with payrolls := s.payrolls ++
      [(newId, { month := req.month, status := .Draft, type := req.type,
                 employees := items })] },
    by simp [create_payroll, hok]⟩

/-- Witness for C8: creation over the sample store (one employee without a
profile, one with) succeeds. -/
theorem payroll_calculation_total_witness :
    ∃ s', create_payroll reqThree oidRun storeCreate = .ok (s', oidRun) :=
  payroll_calculation_total storeCreate reqThree oidRun (by decide)

/-- C10: send with no run id modifies no payroll run document (and no
employee document): only the payslips' sent flags are set. -/
theorem send_all_preserves_runs (s : Store) :
    ∃ s' n, send_payslips none s = .ok (s', n) ∧
      s'.payrolls = s.payrolls ∧ s'.employees = s.employees ∧
      s'.payslips = s.payslips.map (fun sl => { sl with sent := true }) :=
  ⟨_, _, rfl, rfl, rfl, rfl⟩

theorem filter_month_batch (m : PyDate) (items : List PayrollEmployeeItem) :
    (items.map (mkPayslip m)).filter (fun sl => sl.payrollMonth = m) =
      items.map (mkPayslip m) := by
  induction items with
  | nil => rfl
  | cons it rest ih => simp [mkPayslip, List.filter, ih]

/-- C2: processing an existing run sets its status to Processed, appends
one payslip per line item (employee id, the run's month, the item's
earnings/deductions/net, sent = false) and returns the item count;
processing an absent id fails with NotFound. -/
theorem process_payroll_spec (s : Store) (pid : String)
    (hvalid : isValidOid pid = true) :
    (findPayroll s pid = none →
      process_payroll pid s = .error (.notFound "Payroll not found")) ∧
    ∀ p, findPayroll s pid = some p →
      ∃ s', process_payroll pid s = .ok (s', p.employees.length) ∧
        s'.payslips = s.payslips ++ p.employees.map (fun it =>
          { employeeId := it.employee_id, payrollMonth := p.month,
            grossSalary := it.earnings, deductions := it.deductions,
            netSalary := it.net, pdfPath := none, sent := false }) ∧
        findPayroll s' pid = some { p with status := .Processed } ∧
        (∀ qid, qid ≠ pid → findPayroll s' qid = findPayroll s qid) ∧
        s'.employees = s.employees := by
  constructor
  · intro hnone
    simp [process_payroll, hvalid, hnone]
  · intro p hp
    refine ⟨{ s with
        payrolls := setRunStatus s.payrolls pid .Processed,
        payslips := s.payslips ++ p.employees.map (mkPayslip p.month) },
      ?_, rfl, ?_, ?_, rfl⟩
    · simp [process_payroll, hvalid, hp]
    · have hp' : lookupBy s.payrolls pid = some p := hp
      show lookupBy (setRunStatus s.payrolls pid .Processed) pid = _
      rw [lookupBy_setRunStatus_self, hp']
      rfl
    · intro qid hq
      exact lookupBy_setRunStatus_other s.payrolls pid qid .Processed hq

/-- Witness for C2: processing the sample Draft run generates its one
payslip, returns 1 and marks the run Processed. -/
theorem process_payroll_spec_witness :
    ∃ s', process_payroll oidRun storeRun = .ok (s', runFeb.employees.length) ∧
      s'.payslips = storeRun.payslips ++ runFeb.employees.map (fun it =>
        { employeeId := it.employee_id, payrollMonth := runFeb.month,
          grossSalary := it.earnings, deductions := it.deductions,
          netSalary := it.net, pdfPath := none, sent := false }) ∧
      findPayroll s' oidRun = some { runFeb with status := .Processed } ∧
      s'.employees = storeRun.employees := by
  obtain ⟨s', h1, h2, h3, _, h5⟩ :=
    (process_payroll_spec storeRun oidRun (by decide)).2 runFeb (by decide)
  exact ⟨s', h1, h2, h3, h5⟩

/-- C3: process is not idempotent: a second process call on the same run
appends another full batch of payslips, so a store with no payslip for
the run's month ends up with 2N payslips for it after two calls. -/
theorem process_payroll_not_idempotent (s : Store) (pid : String)
    (p : Payroll) (hvalid : isValidOid pid = true)
    (hfind : findPayroll s pid = some p)
    (hclean : (s.payslips.filter (fun sl => sl.payrollMonth = p.month)).length = 0) :
    ∃ s₁ s₂, process_payroll pid s = .ok (s₁, p.employees.length) ∧
      process_payroll pid s₁ = .ok (s₂, p.employees.length) ∧
      s₂.payslips.length = s.payslips.length + 2 * p.employees.length ∧
      (s₂.payslips.filter (fun sl => sl.payrollMonth = p.month)).length =
        2 * p.employees.length := by
  have hp' : lookupBy s.payrolls pid = some p := hfind
  refine ⟨{ s with
      payrolls := setRunStatus s.payrolls pid .Processed,
      payslips := s.payslips ++ p.employees.map (mkPayslip p.month) },
    ?_, ?_, ?_, ?_, ?_⟩
  case refine_2 => simp [process_payroll, hvalid, hfind]
  case refine_1 =>
    exact { payrolls := setRunStatus (setRunStatus s.payrolls pid .Processed)
              pid .Processed,
            employees := s.employees,
            payslips := (s.payslips ++ p.employees.map (mkPayslip p.month)) ++
              p.employees.map (mkPayslip p.month) }
  case refine_3 =>
    have hfind1 : lookupBy (setRunStatus s.payrolls pid .Processed) pid =
        some { p with status := .Processed } := by
      rw [lookupBy_setRunStatus_self, hp']
      rfl
    simp only [process_payroll, hvalid, if_pos, findPayroll, hfind1]
  case refine_4 =>
    simp only [List.append_assoc, List.length_append, List.length_map]
    ring
  case refine_5 =>
    simp only [List.filter_append, List.length_append, hclean,
      filter_month_batch, List.length_map]
    ring

/-- Witness for C3: processing the sample Draft run twice leaves 2
February payslips in the store. -/
theorem process_payroll_not_idempotent_witness :
    ∃ s₁ s₂, process_payroll oidRun storeRun = .ok (s₁, runFeb.employees.length) ∧
      process_payroll oidRun s₁ = .ok (s₂, runFeb.employees.length) ∧
      s₂.payslips.length = storeRun.payslips.length + 2 * runFeb.employees.length ∧
      (s₂.payslips.filter (fun sl => sl.payrollMonth = runFeb.month)).length =
        2 * runFeb.employees.length :=
  process_payroll_not_idempotent storeRun oidRun runFeb
    (by decide) (by decide) (by decide)

/-- C4: send with an existing run's id marks sent = true exactly on the
payslips whose payrollMonth equals that run's month, sets that run's
status to Sent and returns the matched count; send with an absent id
fails with NotFound; send with no run id marks every payslip in the
store. -/
theorem send_payslips_spec (s : Store) (pid : String)
    (hvalid : isValidOid pid = true) :
    (∀ p, findPayroll s pid = some p →
      ∃ s', send_payslips (some pid) s =
          .ok (s', (s.payslips.filter (fun sl => sl.payrollMonth = p.month)).length) ∧
        s'.payslips = s.payslips.map (fun sl =>
          if sl.payrollMonth = p.month then { sl with sent := true } else sl) ∧
        findPayroll s' pid = some { p with status := .Sent } ∧
        (∀ qid, qid ≠ pid → findPayroll s' qid = findPayroll s qid)) ∧
    (findPayroll s pid = none →
      send_payslips (some pid) s = .error (.notFound "Payroll not found")) ∧
    ∃ s'', send_payslips none s = .ok (s'', s.payslips.length) ∧
      s''.payslips = s.payslips.map (fun sl => { sl with sent := true }) := by
  refine ⟨?_, ?_, ⟨_, rfl, rfl⟩⟩
  · intro p hp
    have hp' : lookupBy s.payrolls pid = some p := hp
    refine ⟨{ s with
        payslips := s.payslips.map (fun sl =>
          if sl.payrollMonth = p.month then { sl with sent := true } else sl),
        payrolls := setRunStatus s.payrolls pid .Sent },
      ?_, rfl, ?_, ?_⟩
    · simp [send_payslips, hvalid, hp]
    · show lookupBy (setRunStatus s.payrolls pid .Sent) pid = _
      rw [lookupBy_setRunStatus_self, hp']
      rfl
    · intro qid hq
      exact lookupBy_setRunStatus_other s.payrolls pid qid .Sent hq
  · intro hnone
    simp [send_payslips, hvalid, hnone]

/-- Witness for C4: sending for the sample run marks only the February
payslip (count 1) and marks the run Sent; sending without a run id would
count both payslips. -/
theorem send_payslips_spec_witness :
    ∃ s', send_payslips (some oidRun) storeSend =
        .ok (s', (storeSend.payslips.filter
          (fun sl => sl.payrollMonth = runFeb.month)).length) ∧
      s'.payslips = storeSend.payslips.map (fun sl =>
        if sl.payrollMonth = runFeb.month then { sl with sent := true } else sl) ∧
      findPayroll s' oidRun = some { runFeb with status := .Sent } := by
  obtain ⟨s', h1, h2, h3, _⟩ :=
    (send_payslips_spec storeSend oidRun (by decide)).1 runFeb (by decide)
  exact ⟨s', h1, h2, h3⟩

theorem filter_snd_map (l : List (String × Payroll)) (g : Payroll → Bool) :
    (l.filter (fun kp => g kp.2)).map (fun kp => kp.2) =
      (l.map (fun kp => kp.2)).filter g := by
  induction l with
  | nil => rfl
  | cons kp rest ih =>
    cases hg : g kp.2 <;> simp [List.filter, hg, ih]

theorem filter_merge {α : Type} (p q : α → Bool) (l : List α) :
    (l.filter p).filter q = l.filter (fun a => p a && q a) := by
  induction l with
  | nil => rfl
  | cons a rest ih =>
    cases hp : p a <;> cases hq : q a <;> simp [List.filter, hp, hq, ih]

/-- C5: the month filter of run listing selects exactly the runs whose
month lies in the half-open calendar-month interval; "2024-02" gives
[2024-02-01, 2024-03-01) and "2024-12" gives [2024-12-01, 2025-01-01),
rolling the year over for December. -/
theorem list_payroll_month_filter (s : Store) :
    list_payroll none (some "2024-02") s =
      (s.payrolls.map (fun kp => kp.2)).filter (fun p =>
        PyDate.ble ⟨2024, 2, 1⟩ p.month && PyDate.blt p.month ⟨2024, 3, 1⟩) ∧
    list_payroll none (some "2024-12") s =
      (s.payrolls.map (fun kp => kp.2)).filter (fun p =>
        PyDate.ble ⟨2024, 12, 1⟩ p.month && PyDate.blt p.month ⟨2025, 1, 1⟩) := by
  have h1 : parseMonthFilter "2024-02" =
      some (⟨2024, 2, 1⟩, ⟨2024, 3, 1⟩) := by decide
  have h2 : parseMonthFilter "2024-12" =
      some (⟨2024, 12, 1⟩, ⟨2025, 1, 1⟩) := by decide
  constructor
  · rw [← filter_snd_map]
    simp only [list_payroll, Option.some_bind, h1, runMatches, inRange,
      Bool.true_and]
  · rw [← filter_snd_map]
    simp only [list_payroll, Option.some_bind, h2, runMatches, inRange,
      Bool.true_and]

theorem filter_length_status_partition (l : List (String × Payroll))
    (range : Option (PyDate × PyDate)) :
    (l.filter (fun kp =>
        runMatches { status := none, monthRange := range } kp.2)).length =
      (l.filter (fun kp =>
        runMatches { status := some "Processed", monthRange := range } kp.2)).length +
      (l.filter (fun kp =>
        runMatches { status := some "Sent", monthRange := range } kp.2)).length +
      (l.filter (fun kp =>
        runMatches { status := none, monthRange := range } kp.2 &&
          kp.2.status = PayrollStatus.Draft)).length := by
  induction l with
  | nil => rfl
  | cons kp rest ih =>
    obtain ⟨k, pm, pst, pty, pemp⟩ := kp
    have d1 : (decide (PayrollStatus.Draft = PayrollStatus.Draft)) = true := by decide
    have d2 : (decide (PayrollStatus.Processed = PayrollStatus.Draft)) = false := by
      decide
    have d3 : (decide (PayrollStatus.Sent = PayrollStatus.Draft)) = false := by decide
    cases hr : inRange range pm <;> cases pst <;>
      simp [List.filter_cons, runMatches, statusName, hr, d1, d2, d3] at ih ⊢ <;>
      omega

/-- C6: the summary's counts partition the matching runs — total =
processed + sent + (matching runs in the remaining status, Draft) — and
its gross and net totals are the sums of earnings and net over every line
item of every matching run. -/
theorem payroll_summary_partitions (s : Store) (month : Option String) :
    (payroll_summary month s).total =
      (payroll_summary month s).processed + (payroll_summary month s).sent +
        ((list_payroll none month s).filter
          (fun p => p.status = PayrollStatus.Draft)).length ∧
    (payroll_summary month s).gross =
      ((list_payroll none month s).map
        (fun p => (p.employees.map (fun it => it.earnings)).sum)).sum ∧
    (payroll_summary month s).net =
      ((list_payroll none month s).map
        (fun p => (p.employees.map (fun it => it.net)).sum)).sum := by
  have hlist : list_payroll none month s =
      (s.payrolls.filter (fun kp =>
        runMatches { status := none, monthRange := month.bind parseMonthFilter }
          kp.2)).map (fun kp => kp.2) := by
    cases month <;> rfl
  refine ⟨?_, ?_, ?_⟩
  · have hcount : ((list_payroll none month s).filter
        (fun p => p.status = PayrollStatus.Draft)).length =
        (s.payrolls.filter (fun kp =>
          runMatches { status := none, monthRange := month.bind parseMonthFilter }
            kp.2 && kp.2.status = PayrollStatus.Draft)).length := by
      rw [hlist, ← filter_snd_map, List.length_map, filter_merge]
    rw [hcount]
    exact filter_length_status_partition s.payrolls (month.bind parseMonthFilter)
  · rw [hlist, List.map_map]
    rfl
  · rw [hlist, List.map_map]
    rfl

theorem applyOp_preserves_nonDraft (op : Op) (s : Store) (pid : String)
    (p : Payroll) (hfind : findPayroll s pid = some p)
    (hst : p.status ≠ .Draft) :
    ∃ p', findPayroll (applyOp op s) pid = some p' ∧ p'.status ≠ .Draft := by
  have hp' : lookupBy s.payrolls pid = some p := hfind
  cases op with
  | createEmployee newId e => exact ⟨p, hfind, hst⟩
  | createRun req newId =>
    cases hb : buildItems s req.employee_ids with
    | error err =>
      refine ⟨p, ?_, hst⟩
      simp only [applyOp, create_payroll, hb]
      exact hfind
    | ok items =>
      refine ⟨p, ?_, hst⟩
      simp only [applyOp, create_payroll, hb]
      exact lookupBy_append_left s.payrolls
        [(newId, { month := req.month, status := .Draft, type := req.type,
                   employees := items })] pid p hp'
  | processRun qid =>
    by_cases hv : isValidOid qid = true
    · cases hfq : findPayroll s qid with
      | none =>
        refine ⟨p, ?_, hst⟩
        simp only [applyOp, process_payroll, hv, if_pos, findPayroll] at hfq ⊢
        rw [hfq]
        exact hfind
      | some q =>
        by_cases hq : pid = qid
        · subst hq
          refine ⟨{ p with status := .Processed }, ?_, by simp⟩
          have hfq' : lookupBy s.payrolls pid = some q := hfq
          simp only [applyOp, process_payroll, hv, if_pos, findPayroll] at hfq ⊢
          rw [hfq]
          show lookupBy (setRunStatus s.payrolls pid .Processed) pid = _
          rw [lookupBy_setRunStatus_self, hp']
          rfl
        · refine ⟨p, ?_, hst⟩
          have hfq' : lookupBy s.payrolls qid = some q := hfq
          simp only [applyOp, process_payroll, hv, if_pos, findPayroll] at hfq ⊢
          rw [hfq]
          show lookupBy (setRunStatus s.payrolls qid .Processed) pid = _
          rw [lookupBy_setRunStatus_other s.payrolls qid pid .Processed hq]
          exact hp'
    · refine ⟨p, ?_, hst⟩
      have hv' : isValidOid qid = false := by simpa using hv
      simp only [applyOp, process_payroll, hv', Bool.false_eq_true, if_neg,
        not_false_eq_true]
      exact hfind
  | sendSlips pidOpt =>
    cases pidOpt with
    | none => exact ⟨p, hfind, hst⟩
    | some qid =>
      by_cases hv : isValidOid qid = true
      · cases hfq : findPayroll s qid with
        | none =>
          refine ⟨p, ?_, hst⟩
          simp only [applyOp, send_payslips, hv, if_pos, findPayroll] at hfq ⊢
          rw [hfq]
          exact hfind
        | some q =>
          by_cases hq : pid = qid
          · subst hq
            refine ⟨{ p with status := .Sent }, ?_, by simp⟩
            simp only [applyOp, send_payslips, hv, if_pos, findPayroll] at hfq ⊢
            rw [hfq]
            show lookupBy (setRunStatus s.payrolls pid .Sent) pid = _
            rw [lookupBy_setRunStatus_self, hp']
            rfl
          · refine ⟨p, ?_, hst⟩
            simp only [applyOp, send_payslips, hv, if_pos, findPayroll] at hfq ⊢
            rw [hfq]
            show lookupBy (setRunStatus s.payrolls qid .Sent) pid = _
            rw [lookupBy_setRunStatus_other s.payrolls qid pid .Sent hq]
            exact hp'
      · refine ⟨p, ?_, hst⟩
        have hv' : isValidOid qid = false := by simpa using hv
        simp only [applyOp, send_payslips, hv', Bool.false_eq_true, if_neg,
          not_false_eq_true]
        exact hfind

/-- C9: no sequence of API operations ever returns a run's status to
Draft once it has left Draft: if the run's status is not Draft, then
after any sequence of creates, processes and sends it still exists and
its status is still not Draft. -/
theorem no_return_to_draft (ops : List Op) (s : Store) (pid : String)
    (p : Payroll) (hfind : findPayroll s pid = some p)
    (hst : p.status ≠ .Draft) :
    ∃ p', findPayroll (applyOps ops s) pid = some p' ∧ p'.status ≠ .Draft := by
  induction ops generalizing s p with
  | nil => exact ⟨p, hfind, hst⟩
  | cons op rest ih =>
    obtain ⟨p', h1, h2⟩ := applyOp_preserves_nonDraft op s pid p hfind hst
    exact ih (applyOp op s) p' h1 h2

/-- Witness for C9: the sample Processed run is still not Draft after a
re-process, a send by id, a global send and a fresh run creation. -/
theorem no_return_to_draft_witness :
    ∃ p', findPayroll (applyOps opsLifecycle storeLifecycle) oidRun = some p' ∧
      p'.status ≠ .Draft :=
  no_return_to_draft opsLifecycle storeLifecycle oidRun runProcessed
    (by decide) (by decide)

end SyncZenith
